import Mathlib

/-!
Shallow embedding of the SecuritiesResearchTool backtesting core
(src/backend/backtesting/…) and pattern layer (src/backend/patterns/…).

Conventions of the embedding:
* Prices, percentages and cash are modelled as exact rationals (the source
  uses 64-bit floats; all claims under scrutiny are about the algebraic
  structure of the computations, not rounding).
* Trading dates are natural numbers (the source uses calendar dates,
  compared only for equality and order).
* Python `int(x)` (truncation toward zero) is modelled by `pyint`.
* A pandas Series column is a `List ℚ`; out-of-range `shift` comparisons
  (NaN in pandas) evaluate to `false`, matching pandas semantics.
* Python dicts that the engine only extends with fresh keys and pops are
  modelled as association/insertion-ordered lists.
-/

namespace SRT

/- Batteries marks the rational-arithmetic kernels `@[irreducible]` for
performance; restore the default transparency locally so that concrete
scenario computations can be settled by `decide`/`rfl`. -/
attribute [local semireducible] Rat.add Rat.sub Rat.mul Rat.inv Rat.ofScientific

/-- Python `int()` on a rational: truncation toward zero. -/
def pyint (q : ℚ) : ℤ := if q < 0 then ⌈q⌉ else ⌊q⌋

/-- One daily OHLCV bar (only the fields the backtesting core reads). -/
structure Bar where
  high : ℚ
  low : ℚ
  close : ℚ
  deriving Repr, DecidableEq

/-- A price panel: list of (date, bar), in ascending date order. -/
abbrev Panel := List (Nat × Bar)

/-- `price_data`: symbol → panel. -/
abbrev PriceData := List (String × Panel)

/-- An entry signal dict: `{symbol, confidence}`. -/
structure Signal where
  symbol : String
  confidence : ℚ
  deriving Repr, DecidableEq

/-- `signals` mapping: date → list of signal dicts for that date. -/
abbrev SignalMap := List (Nat × List Signal)

/-- Open position (src/backend/backtesting/positions.py, class Position). -/
structure Position where
  symbol : String
  shares : ℤ
  entry_price : ℚ
  entry_date : Nat
  stop_loss : ℚ
  take_profit : ℚ
  current_price : ℚ
  current_date : Option Nat
  deriving Repr, DecidableEq

/-- Position construction including `__post_init__`: a zero
`current_price` defaults to the entry price, a missing `current_date`
defaults to the entry date.  The engine always constructs positions with
`current_price = 0` and `current_date = none`. -/
def Position.make (symbol : String) (shares : ℤ) (entry_price : ℚ)
    (entry_date : Nat) (stop_loss take_profit : ℚ)
    (current_price : ℚ) (current_date : Option Nat) : Position :=
  { symbol := symbol
    shares := shares
    entry_price := entry_price
    entry_date := entry_date
    stop_loss := stop_loss
    take_profit := take_profit
    current_price := if current_price = 0 then entry_price else current_price
    current_date := some (current_date.getD entry_date) }

/-- `Position.current_value = shares * current_price`. -/
def Position.current_value (p : Position) : ℚ := (p.shares : ℚ) * p.current_price

/-- `Position.cost_basis = shares * entry_price`. -/
def Position.cost_basis (p : Position) : ℚ := (p.shares : ℚ) * p.entry_price

/-- `Position.unrealized_pnl = current_value - cost_basis`. -/
def Position.unrealized_pnl (p : Position) : ℚ := p.current_value - p.cost_basis

/-- `Position.update_price` (mutation modelled functionally). -/
def Position.update_price (p : Position) (price : ℚ) (dt : Nat) : Position :=
  { p with current_price := price, current_date := some dt }

/-- Completed trade (src/backend/backtesting/positions.py, class Trade). -/
structure Trade where
  symbol : String
  entry_date : Nat
  entry_price : ℚ
  exit_date : Nat
  exit_price : ℚ
  shares : ℤ
  profit_loss : ℚ
  profit_loss_pct : ℚ
  exit_reason : String
  deriving Repr, DecidableEq

/-- Risk-manager configuration (src/backend/backtesting/risk_manager.py,
constructor fields). -/
structure RiskManager where
  initial_stop_loss_pct : ℚ
  trailing_stop_trigger_pct : ℚ
  trailing_stop_atr_multiplier : ℚ
  max_position_size_pct : ℚ
  max_portfolio_risk_pct : ℚ
  max_drawdown_limit : ℚ
  deriving Repr, DecidableEq

/-- The constructor defaults of `RiskManager`. -/
def RiskManager.default : RiskManager :=
  { initial_stop_loss_pct := 1/10
    trailing_stop_trigger_pct := 15/100
    trailing_stop_atr_multiplier := 2
    max_position_size_pct := 1/10
    max_portfolio_risk_pct := 2/100
    max_drawdown_limit := 2/10 }

/-- `RiskManager.calculate_initial_stop_loss`. -/
def calculate_initial_stop_loss (rm : RiskManager) (entry_price : ℚ) : ℚ :=
  entry_price * (1 - rm.initial_stop_loss_pct)

/-- `RiskManager.calculate_take_profit` (default 20% target). -/
def calculate_take_profit (entry_price : ℚ) : ℚ :=
  entry_price * (1 + 20/100)

/-- `RiskManager.update_trailing_stop`.  `atr = none` models both a
missing ATR argument and a NaN ATR value: in the source either one fails
the test `atr is not None and atr > 0`. -/
def update_trailing_stop (rm : RiskManager) (position : Position)
    (current_price : ℚ) (atr : Option ℚ) : ℚ :=
  let gain_pct := (current_price - position.entry_price) / position.entry_price
  if gain_pct < rm.trailing_stop_trigger_pct then
    position.stop_loss
  else
    let trailing_stop :=
      match atr with
      | some a => if 0 < a then current_price - rm.trailing_stop_atr_multiplier * a
                  else current_price * (1 - rm.initial_stop_loss_pct)
      | none => current_price * (1 - rm.initial_stop_loss_pct)
    max position.stop_loss trailing_stop

/-- `RiskManager.calculate_position_size`. -/
def calculate_position_size (rm : RiskManager) (portfolio_value : ℚ)
    (entry_price : ℚ) (stop_loss_price : ℚ) : ℤ :=
  let max_position_value := portfolio_value * rm.max_position_size_pct
  let shares_by_size := pyint (max_position_value / entry_price)
  let risk_per_share := entry_price - stop_loss_price
  if risk_per_share ≤ 0 then shares_by_size
  else
    let max_risk_amount := portfolio_value * rm.max_portfolio_risk_pct
    let shares_by_risk := pyint (max_risk_amount / risk_per_share)
    min shares_by_size shares_by_risk

/-- `RiskManager.check_drawdown_limit`. -/
def check_drawdown_limit (rm : RiskManager) (current_drawdown : ℚ) : Bool :=
  rm.max_drawdown_limit ≤ current_drawdown

/-! ### ATR (src/backend/backtesting/utils.py, calculate_atr)

The engine consumes a single ATR value, `atr.loc[current_date]`, and only
when the panel has at least 14 bars.  `calculate_atr` builds the true
range `TR[i] = max(H-L, abs(H-C_prev), abs(L-C_prev))` (at `i = 0` the two
`shift`-based columns are NaN, which pandas' row-wise max skips, leaving
`H-L`), then takes `rolling(14).mean()`, which is NaN before index 13.
A NaN ATR value behaves in `update_trailing_stop` exactly like a missing
one, so the embedding returns `none` for it. -/

/-- True range at position `i` of a panel. -/
def true_range (bars : List Bar) (i : Nat) : ℚ :=
  match bars.get? i with
  | none => 0
  | some b =>
    match i, bars.get? (i - 1) with
    | 0, _ => b.high - b.low
    | _ + 1, none => b.high - b.low
    | _ + 1, some prev =>
        max (b.high - b.low) (max |b.high - prev.close| |b.low - prev.close|)

/-- `calculate_atr(...).loc[d]` for a panel, as consumed by
`BacktestEngine._update_positions`: `some` of the mean of the last 14 true
ranges ending at the bar for `d`, and `none` when the value would be NaN
(fewer than 14 bars up to and including `d`). -/
def atr_at (panel : Panel) (d : Nat) : Option ℚ :=
  match panel.findIdx? (fun p => p.1 = d) with
  | none => none
  | some i =>
    if 13 ≤ i then
      some ((((List.range 14).map (fun k => true_range (panel.map (·.2)) (i - k))).sum) / 14)
    else none

/-! ### Backtest engine (src/backend/backtesting/engine.py) -/

/-- The engine's configuration (`BacktestEngine.__init__` arguments). -/
structure BacktestConfig where
  initial_capital : ℚ
  max_positions : Nat
  risk_manager : RiskManager
  deriving Repr, DecidableEq

/-- `BacktestEngine` constructor defaults. -/
def BacktestConfig.default : BacktestConfig :=
  { initial_capital := 100000, max_positions := 10, risk_manager := RiskManager.default }

/-- The engine's mutable state after `reset()`. -/
structure EngineState where
  cash : ℚ
  positions : List Position
  trades : List Trade
  equity_curve : List ℚ
  peak_equity : ℚ
  deriving Repr, DecidableEq

/-- State after `reset()`. -/
def EngineState.init (cfg : BacktestConfig) : EngineState :=
  { cash := cfg.initial_capital, positions := [], trades := [],
    equity_curve := [], peak_equity := cfg.initial_capital }

/-- Panel lookup for a symbol in `price_data`. -/
def lookup_panel (price_data : PriceData) (symbol : String) : Option Panel :=
  (price_data.find? (fun p => p.1 = symbol)).map (·.2)

/-- Bar lookup for a date in a panel (`current_date in df.index` plus
`df.loc[current_date]`). -/
def bar_on (panel : Panel) (d : Nat) : Option Bar :=
  (panel.find? (fun p => p.1 = d)).map (·.2)

/-- `BacktestEngine._calculate_portfolio_value`. -/
def calculate_portfolio_value (st : EngineState) : ℚ :=
  st.cash + (st.positions.map Position.current_value).sum

/-- `BacktestEngine._calculate_current_drawdown`. -/
def calculate_current_drawdown (st : EngineState) : ℚ :=
  if st.peak_equity ≤ 0 then 0
  else (st.peak_equity - calculate_portfolio_value st) / st.peak_equity

/-- Step A body for one position: mark to market on `d` and refresh the
trailing stop (`BacktestEngine._update_positions`, loop body). -/
def update_one_position (rm : RiskManager) (price_data : PriceData) (d : Nat)
    (position : Position) : Position :=
  match lookup_panel price_data position.symbol with
  | none => position
  | some df =>
    match bar_on df d with
    | none => position
    | some row =>
      let position := position.update_price row.close d
      let atr_val : Option ℚ := if 14 ≤ df.length then atr_at df d else none
      let new_stop := update_trailing_stop rm position position.current_price atr_val
      { position with stop_loss := new_stop }

/-- `BacktestEngine._update_positions`. -/
def update_positions (rm : RiskManager) (price_data : PriceData) (d : Nat)
    (st : EngineState) : EngineState :=
  { st with positions := st.positions.map (update_one_position rm price_data d) }

/-- Per-position exit decision of `BacktestEngine._check_exits`: the
stop-loss test first, the take-profit test only in the `elif`, so at most
one exit signal is produced (reason, exit price). -/
def exit_signal_for (position : Position) : Option (String × ℚ) :=
  if position.current_price ≤ position.stop_loss then
    some ("STOP_LOSS", position.current_price)
  else if position.take_profit ≤ position.current_price then
    some ("TAKE_PROFIT", position.current_price)
  else none

/-- `BacktestEngine._execute_exit`. The source pops the symbol from the
positions dict (engine flow guarantees it is present; a missing symbol
would raise, modelled as a no-op). -/
def execute_exit (symbol : String) (exit_price : ℚ) (exit_date : Nat)
    (reason : String) (st : EngineState) : EngineState :=
  match st.positions.find? (fun p => p.symbol = symbol) with
  | none => st
  | some position =>
    let proceeds := (position.shares : ℚ) * exit_price
    let profit_loss := proceeds - position.cost_basis
    let profit_loss_pct := profit_loss / position.cost_basis
    let trade : Trade :=
      { symbol := symbol
        entry_date := position.entry_date
        entry_price := position.entry_price
        exit_date := exit_date
        exit_price := exit_price
        shares := position.shares
        profit_loss := profit_loss
        profit_loss_pct := profit_loss_pct
        exit_reason := reason }
    { st with
      positions := st.positions.eraseP (fun p => p.symbol = symbol)
      cash := st.cash + proceeds
      trades := st.trades ++ [trade] }

/-- `BacktestEngine._check_exits`: collect the exit signals over a
snapshot of the positions, then execute them in order. -/
def check_exits (d : Nat) (st : EngineState) : EngineState :=
  let exit_signals := st.positions.filterMap
    (fun p => (exit_signal_for p).map (fun rp => (p.symbol, rp.1, rp.2)))
  exit_signals.foldl (fun s e => execute_exit e.1 e.2.2 d e.2.1 s) st

/-- Stable descending insertion by a rational key: the new element goes
after every element whose key is at least as large. -/
def insert_desc {α : Type} (key : α → ℚ) (s : α) : List α → List α
  | [] => [s]
  | t :: ts => if key t < key s then s :: t :: ts else t :: insert_desc key s ts

/-- Python `sorted(l, key=key, reverse=True)` / `l.sort(key=key,
reverse=True)`: a stable descending sort — ties keep their input order. -/
def sort_desc_by {α : Type} (key : α → ℚ) (l : List α) : List α :=
  l.foldl (fun acc s => insert_desc key s acc) []

/-- `sorted(day_signals, key=confidence, reverse=True)` in
`BacktestEngine._process_entries` (a missing confidence key defaults to 0;
the embedded `Signal` always carries one). -/
def sort_signals_desc (l : List Signal) : List Signal :=
  sort_desc_by Signal.confidence l

/-- `BacktestEngine._execute_entry`. The engine only reaches this with a
symbol not yet in the positions dict, so the dict assignment appends. -/
def execute_entry (symbol : String) (shares : ℤ) (entry_price : ℚ)
    (entry_date : Nat) (stop_loss take_profit : ℚ) (st : EngineState) : EngineState :=
  let cost := (shares : ℚ) * entry_price
  let position := Position.make symbol shares entry_price entry_date
      stop_loss take_profit 0 none
  { st with positions := st.positions ++ [position], cash := st.cash - cost }

/-- The `for signal in sorted_signals` loop of
`BacktestEngine._process_entries`; `portfolio_value` and
`current_drawdown` were computed before the loop and are not refreshed. -/
def process_signal_list (cfg : BacktestConfig) (price_data : PriceData) (d : Nat)
    (portfolio_value current_drawdown : ℚ) :
    List Signal → EngineState → EngineState
  | [], st => st
  | signal :: rest, st =>
    if cfg.max_positions ≤ st.positions.length then st
    else if check_drawdown_limit cfg.risk_manager current_drawdown then st
    else if signal.symbol = "" ∨ (st.positions.any (fun p => p.symbol = signal.symbol)) then
      process_signal_list cfg price_data d portfolio_value current_drawdown rest st
    else
      match lookup_panel price_data signal.symbol with
      | none => process_signal_list cfg price_data d portfolio_value current_drawdown rest st
      | some df =>
        match bar_on df d with
        | none => process_signal_list cfg price_data d portfolio_value current_drawdown rest st
        | some row =>
          let entry_price := row.close
          let stop_loss := calculate_initial_stop_loss cfg.risk_manager entry_price
          let take_profit := calculate_take_profit entry_price
          let shares := calculate_position_size cfg.risk_manager portfolio_value
              entry_price stop_loss
          if shares ≤ 0 then
            process_signal_list cfg price_data d portfolio_value current_drawdown rest st
          else
            let cost := (shares : ℚ) * entry_price
            if st.cash < cost then
              let shares := pyint (st.cash / entry_price)
              if shares ≤ 0 then
                process_signal_list cfg price_data d portfolio_value current_drawdown rest st
              else
                process_signal_list cfg price_data d portfolio_value current_drawdown rest
                  (execute_entry signal.symbol shares entry_price d stop_loss take_profit st)
            else
              process_signal_list cfg price_data d portfolio_value current_drawdown rest
                (execute_entry signal.symbol shares entry_price d stop_loss take_profit st)

/-- `BacktestEngine._process_entries`. -/
def process_entries (cfg : BacktestConfig) (price_data : PriceData) (d : Nat)
    (day_signals : List Signal) (st : EngineState) : EngineState :=
  let sorted_signals := sort_signals_desc day_signals
  let portfolio_value := calculate_portfolio_value st
  let current_drawdown := calculate_current_drawdown st
  process_signal_list cfg price_data d portfolio_value current_drawdown sorted_signals st

/-- `BacktestEngine._process_day`: steps A (mark to market), B (exits),
C (equity snapshot), D (entries, only when a signals mapping was given;
with an absent mapping step D is skipped, and a missing date key yields an
empty signal list, which leaves the state unchanged). -/
def process_day (cfg : BacktestConfig) (price_data : PriceData)
    (signals : Option SignalMap) (d : Nat) (st : EngineState) : EngineState :=
  let st := update_positions cfg.risk_manager price_data d st
  let st := check_exits d st
  let portfolio_value := calculate_portfolio_value st
  let st := { st with
    equity_curve := st.equity_curve ++ [portfolio_value],
    peak_equity := max st.peak_equity portfolio_value }
  match signals with
  | none => st
  | some m =>
    let day_signals := ((m.find? (fun p => p.1 = d)).map (·.2)).getD []
    process_entries cfg price_data d day_signals st

/-- Ascending insertion for the sorted date universe. -/
def insert_asc (n : Nat) : List Nat → List Nat
  | [] => [n]
  | m :: ms => if n ≤ m then n :: m :: ms else m :: insert_asc n ms

/-- `sorted(all_dates)` over the union (deduplicated) of panel dates. -/
def all_dates (price_data : PriceData) : List Nat :=
  ((price_data.flatMap (fun p => p.2.map (·.1))).dedup).foldl
    (fun acc n => insert_asc n acc) []

/-- `BacktestEngine.run_backtest` (final state; `_get_results` only
repackages `trades`, `equity_curve` and the open positions and computes
metrics from them). -/
def run_backtest (cfg : BacktestConfig) (price_data : PriceData)
    (signals : Option SignalMap) (start_date end_date : Option Nat) : EngineState :=
  let sorted_dates := all_dates price_data
  match sorted_dates with
  | [] => EngineState.init cfg
  | d0 :: rest =>
    let start := start_date.getD d0
    let stop := end_date.getD ((d0 :: rest).getLast (by simp))
    let trading_dates := (d0 :: rest).filter (fun d => start ≤ d ∧ d ≤ stop)
    trading_dates.foldl (fun st d => process_day cfg price_data signals d st)
      (EngineState.init cfg)

/-! ### Performance calculator (src/backend/backtesting/performance.py) -/

/-- Gross profit: sum of the positive trade P&Ls. -/
def gross_profit (trades : List Trade) : ℚ :=
  ((trades.filter (fun t => 0 < t.profit_loss)).map Trade.profit_loss).sum

/-- Gross loss: absolute value of the sum of the negative trade P&Ls. -/
def gross_loss (trades : List Trade) : ℚ :=
  |((trades.filter (fun t => t.profit_loss < 0)).map Trade.profit_loss).sum|

/-- `PerformanceCalculator.calculate_profit_factor`; `⊤` models the
source's `float("inf")`. -/
def calculate_profit_factor (trades : List Trade) : WithTop ℚ :=
  if gross_loss trades = 0 then
    if 0 < gross_profit trades then ⊤ else (0 : ℚ)
  else ((gross_profit trades / gross_loss trades : ℚ) : WithTop ℚ)

/-! ### Shared pattern geometry (src/backend/patterns/utils.py) -/

/-- Position `i` of the series compared against its neighbour `k` steps
away on each side, as one conjunct of the `is_max` accumulation:
`data > data.shift(k)` and `data > data.shift(-k)` at row `i`.  An
out-of-range neighbour is NaN in pandas and the comparison is `false`. -/
def local_max_at (data : List ℚ) (i k : Nat) : Bool :=
  match data.get? i, (if k ≤ i then data.get? (i - k) else none), data.get? (i + k) with
  | some x, some a, some b => decide (a < x) && decide (b < x)
  | _, _, _ => false

/-- Symmetric conjunct for the `is_min` accumulation. -/
def local_min_at (data : List ℚ) (i k : Nat) : Bool :=
  match data.get? i, (if k ≤ i then data.get? (i - k) else none), data.get? (i + k) with
  | some x, some a, some b => decide (x < a) && decide (x < b)
  | _, _, _ => false

/-- `find_local_extrema(data, order)`: the indices where every comparison
for `k ∈ [1, order]` holds, for maxima and for minima. -/
def find_local_extrema (data : List ℚ) (order : Nat) : List Nat × List Nat :=
  ((List.range data.length).filter
      (fun i => (List.range order).all (fun k => local_max_at data i (k + 1))),
   (List.range data.length).filter
      (fun i => (List.range order).all (fun k => local_min_at data i (k + 1))))

/-- `calculate_percentage_change`. -/
def calculate_percentage_change (start_price end_price : ℚ) : ℚ :=
  if start_price = 0 then 0 else ((end_price - start_price) / start_price) * 100

/-- `is_volume_drying_up(volume, window=20, threshold_ratio=0.8)`. -/
def is_volume_drying_up (volume : List ℚ) (window : Nat) : Bool :=
  if volume.length < window * 2 then false
  else
    let current_vol := ((volume.drop (volume.length - window)).sum) / (window : ℚ)
    let past_vol := (((volume.drop (volume.length - window * 2)).take window).sum) / (window : ℚ)
    decide (current_vol < past_vol * (8/10 : ℚ))

/-! ### Pattern results (src/backend/patterns/base.py)

`meta_data` is an opaque `Dict[str, Any]` bag; the one meta field a claim
refers to (the VCP contraction count) is exposed through
`vcp_setup`/`vcp_contraction_count` below instead of an untyped map. -/

/-- `PatternResult` (without the opaque `meta_data` bag). -/
structure PatternResult where
  pattern_type : String
  symbol : String
  detection_date : Nat
  confidence_score : ℚ
  confirmed : Bool
  weinstein_stage : Option ℤ
  meets_trend_template : Bool
  deriving Repr, DecidableEq

/-! ### Trend Template detector (src/backend/patterns/trend_template.py) -/

/-- A row of the pre-computed indicator panel the detector consumes.
`none` models a missing column or a NaN value: the source treats both the
same (`col not in current.index or pd.isna(current[col])`). -/
structure TTRow where
  close : Option ℚ
  sma_50 : Option ℚ
  sma_150 : Option ℚ
  sma_200 : Option ℚ
  week_52_high : Option ℚ
  week_52_low : Option ℚ
  mansfield_rs : Option ℚ
  deriving Repr, DecidableEq

/-- `TrendTemplateDetector.detect`. -/
def tt_detect (symbol : String) (data : List (Nat × TTRow)) : Option PatternResult :=
  match data.getLast? with
  | none => none
  | some (d, current) =>
    match current.close, current.sma_50, current.sma_150, current.sma_200,
        current.week_52_high, current.week_52_low with
    | some close, some sma_50, some sma_150, some sma_200,
      some week_52_high, some week_52_low =>
      let c1 := decide (sma_150 < close) && decide (sma_200 < close)
      let c2 := decide (sma_200 < sma_150)
      let c3 :=
        if 20 ≤ data.length then
          match (data.get? (data.length - 20)).bind (fun p => p.2.sma_200) with
          | some past_sma_200 => decide (past_sma_200 < sma_200)
          | none => false
        else false
      let c4 := decide (sma_150 < sma_50) && decide (sma_200 < sma_50)
      let c5 := decide (sma_50 < close)
      let c6 := decide ((13/10 : ℚ) * week_52_low ≤ close)
      let c7 := decide ((3/4 : ℚ) * week_52_high ≤ close)
      let c8 :=
        match current.mansfield_rs with
        | some rs => decide ((0 : ℚ) < rs)
        | none => true
      if c1 && c2 && c3 && c4 && c5 && c6 && c7 && c8 then
        some { pattern_type := "TREND_TEMPLATE"
               symbol := symbol
               detection_date := d
               confidence_score := if c8 then 90 else 70
               confirmed := true
               weinstein_stage := none
               meets_trend_template := true }
      else none
    | _, _, _, _, _, _ => none

/-! ### VCP detector (src/backend/patterns/vcp.py) -/

/-- The columns the VCP detector reads from a bar. -/
structure VBar where
  high : ℚ
  low : ℚ
  volume : ℚ
  deriving Repr, DecidableEq

/-- One identified contraction. -/
structure VContraction where
  start_high_idx : Nat
  low_idx : Nat
  end_high_idx : Nat
  depth : ℚ
  deriving Repr, DecidableEq

/-- `VCPDetector.__init__` configuration. -/
structure VCPConfig where
  min_contractions : Nat
  max_contractions : Nat
  deriving Repr, DecidableEq

/-- The constructor defaults `min_contractions = 2, max_contractions = 5`. -/
def VCPConfig.default : VCPConfig := { min_contractions := 2, max_contractions := 5 }

/-- Base start: the source's forward scan over the local-maxima indices,
starting from `base_start_pos = -1, base_high_val = -1.0` and replacing
the best on strict improvement (so the first index attaining the largest
high wins); `none` models the `-1` sentinel surviving to the
`base_start_pos == -1` early return. -/
def vcp_base_start (highs : List ℚ) (max_indices : List Nat) : Option Nat :=
  (max_indices.foldl
    (fun acc idx =>
      let val := highs.getD idx 0
      if acc.2 < val then (some idx, val) else acc)
    ((none : Option Nat), (-1 : ℚ))).1

/-- The deepest low strictly between two highs: the first index among
`interval_mins` whose low is strictly smaller than every earlier one
(the source's `val < min_val` scan). -/
def vcp_deepest_low (lows : List ℚ) (interval_mins : List Nat) : Option Nat :=
  interval_mins.foldl
    (fun best m =>
      match best with
      | none => some m
      | some b => if lows.getD m 0 < lows.getD b 0 then some m else some b)
    none

/-- The contraction list built from consecutive pairs of relevant local
highs; a pair with no intervening low contributes nothing. -/
def vcp_build_contractions (highs lows : List ℚ) (relevant_max relevant_min : List Nat) :
    List VContraction :=
  (relevant_max.zip relevant_max.tail).filterMap
    (fun hh =>
      let h1_pos := hh.1
      let h2_pos := hh.2
      let interval_mins := relevant_min.filter (fun m => h1_pos < m ∧ m < h2_pos)
      (vcp_deepest_low lows interval_mins).map
        (fun min_pos =>
          { start_high_idx := h1_pos
            low_idx := min_pos
            end_high_idx := h2_pos
            depth := |calculate_percentage_change (highs.getD h1_pos 0) (lows.getD min_pos 0)| }))

/-- Everything of `VCPDetector.detect` up to and including the
contraction construction (source lines 25-133): `none` on each early
return, otherwise the contraction list. -/
def vcp_setup (data : List (Nat × VBar)) : Option (List VContraction) :=
  if data.length < 50 then none
  else
    let highs := data.map (fun p => p.2.high)
    let lows := data.map (fun p => p.2.low)
    let extrema := find_local_extrema highs 5
    if extrema.1.isEmpty then none
    else
      let recent_cutoff := data.length - 250
      let max_indices := extrema.1.filter (fun i => recent_cutoff ≤ i)
      let min_indices := extrema.2.filter (fun i => recent_cutoff ≤ i)
      if max_indices.length < 2 then none
      else
        match vcp_base_start highs max_indices with
        | none => none
        | some base_start_pos =>
          let relevant_max := max_indices.filter (fun i => base_start_pos ≤ i)
          let relevant_min := min_indices.filter (fun i => base_start_pos < i)
          if relevant_max.length < 2 ∨ relevant_min.isEmpty then none
          else some (vcp_build_contractions highs lows relevant_max relevant_min)

/-- The depth-sequence check (each depth at most 1.2 times the previous). -/
def vcp_valid_structure (contractions : List VContraction) : Bool :=
  (contractions.zip contractions.tail).all
    (fun cc => decide (cc.2.depth ≤ cc.1.depth * (12/10 : ℚ)))

/-- `VCPDetector.detect`. -/
def vcp_detect (cfg : VCPConfig) (symbol : String) (data : List (Nat × VBar)) :
    Option PatternResult :=
  match vcp_setup data with
  | none => none
  | some contractions =>
    if contractions.length < cfg.min_contractions then none
    else if ¬ vcp_valid_structure contractions then none
    else
      let vol_dry := is_volume_drying_up (data.map (fun p => p.2.volume)) 20
      let last_depth := (contractions.getLast?.map VContraction.depth).getD 0
      let is_tight := decide (last_depth < 15)
      if is_tight then
        some { pattern_type := "VCP"
               symbol := symbol
               detection_date := ((data.getLast?.map (·.1)).getD 0)
               confidence_score := if vol_dry then 85 else 70
               confirmed := false
               weinstein_stage := none
               meets_trend_template := false }
      else none

/-- The contraction count `detect` would report in `meta_data`. -/
def vcp_contraction_count (data : List (Nat × VBar)) : Nat :=
  ((vcp_setup data).map List.length).getD 0

/-! ### Scanner (src/backend/patterns/orchestrator.py) -/

/-- The filtering loop of `PatternScanner.get_actionable_setups`: walk the
`scan_universe` output (symbol → detected patterns, in scan order) and
collect the patterns passing the confidence threshold and the
confirmed-or-trend-template gate. -/
def actionable_filter (all_results : List (String × List PatternResult))
    (min_confidence : ℚ) : List PatternResult :=
  all_results.foldl
    (fun acc sp =>
      acc ++ sp.2.filter
        (fun pattern =>
          decide (min_confidence ≤ pattern.confidence_score) &&
          (pattern.confirmed || pattern.meets_trend_template)))
    []

/-- `PatternScanner.get_actionable_setups`: the filtering loop followed by
`actionable.sort(key=confidence_score, reverse=True)` (Python's sort is
stable, so ties keep scan order). -/
def get_actionable_setups (all_results : List (String × List PatternResult))
    (min_confidence : ℚ) : List PatternResult :=
  sort_desc_by PatternResult.confidence_score (actionable_filter all_results min_confidence)

/-! ### Concrete scenario data used by the theorems below -/

/-- A bar whose open/high/low/close all sit at the close (only the close
is read by the engine on panels this short). -/
def mk_bar (c : ℚ) : Bar := { high := c, low := c, close := c }

/-- Scenario S2 panel: closes 100,105,110,108,95,85,80,75,70,65 on
days 0..9. -/
def s2_data : PriceData :=
  [("A", (List.range 10).zip ([100, 105, 110, 108, 95, 85, 80, 75, 70, 65].map mk_bar))]

/-- Scenario S2 signal: buy "A" on day 0 at confidence 85. -/
def s2_signals : SignalMap := [(0, [{ symbol := "A", confidence := 85 }])]

/-- The single trade scenario S2 produces. -/
def s2_trade : Trade :=
  { symbol := "A", entry_date := 0, entry_price := 100, exit_date := 5,
    exit_price := 85, shares := 100, profit_loss := -1500,
    profit_loss_pct := -(3/20), exit_reason := "STOP_LOSS" }

/-- Engine configuration for the signal-shuffle counterexample: one
position slot, otherwise defaults. -/
def c5_cfg : BacktestConfig :=
  { initial_capital := 100000, max_positions := 1, risk_manager := RiskManager.default }

/-- Two symbols, both with a bar on day 0; "A" then crashes through its
stop while "B" runs through its take-profit. -/
def c5_data : PriceData :=
  [("A", [(0, mk_bar 100), (1, mk_bar 80)]),
   ("B", [(0, mk_bar 100), (1, mk_bar 125)])]

/-- Same-day signals at equal confidence, order A then B. -/
def c5_signals_ab : SignalMap :=
  [(0, [{ symbol := "A", confidence := 85 }, { symbol := "B", confidence := 85 }])]

/-- The same signals, shuffled: order B then A. -/
def c5_signals_ba : SignalMap :=
  [(0, [{ symbol := "B", confidence := 85 }, { symbol := "A", confidence := 85 }])]

/-- Signals with distinct confidences in descending order. -/
def c5w_m1 : SignalMap :=
  [(0, [{ symbol := "A", confidence := 85 }, { symbol := "B", confidence := 70 }])]

/-- The same signals presented in the opposite order: the stable
descending sort maps both inputs to the same sequence. -/
def c5w_m2 : SignalMap :=
  [(0, [{ symbol := "B", confidence := 70 }, { symbol := "A", confidence := 85 }])]

/-- A small panel with positive closes for the cash-invariant witness:
scenario S4's shape — capital 100, entry price 60, so the sized entry must
be reduced and a second same-day entry is skipped. -/
def c4_data : PriceData :=
  [("A", [(0, mk_bar 60), (1, mk_bar 60)]), ("B", [(0, mk_bar 60), (1, mk_bar 60)])]

/-- Two same-day signals against 100 of capital. -/
def c4_signals : SignalMap :=
  [(0, [{ symbol := "A", confidence := 90 }, { symbol := "B", confidence := 80 }])]

/-- A tiny engine configuration with 100 of initial capital. -/
def c4_cfg : BacktestConfig :=
  { initial_capital := 100, max_positions := 10, risk_manager := RiskManager.default }

/-- Trend-template panel passing criteria 1-7 with no Mansfield RS value
anywhere (the RS column is absent). -/
def c6_row (i : Nat) : TTRow :=
  { close := some (125 + i), sma_50 := some (120 + i), sma_150 := some (110 + i),
    sma_200 := some (100 + i), week_52_high := some 160, week_52_low := some 100,
    mansfield_rs := none }

/-- Thirty days of `c6_row`. -/
def c6_data : List (Nat × TTRow) := (List.range 30).map (fun i => (i, c6_row i))

/-- The result the detector emits on `c6_data`. -/
def c6_expected : PatternResult :=
  { pattern_type := "TREND_TEMPLATE", symbol := "TEST", detection_date := 29,
    confidence_score := 90, confirmed := true, weinstein_stage := none,
    meets_trend_template := true }

/-- High series for the VCP counter-panel: a triangular wave peaking at
100 on days 6, 18, ..., 78 with valleys at 94, then a strict decline. -/
def c7_high (i : Nat) : ℚ :=
  if i ≤ 78 then
    let r := (i + 6) % 12
    (100 : ℚ) - ((min r (12 - r) : Nat) : ℚ)
  else (100 : ℚ) - ((i - 78 : Nat) : ℚ)

/-- Low series: equal to the highs except at the six valleys 12, 24, ...,
72, where the lows 86, 87, 88, 89, 90, 91 give contraction depths
14%, 13%, 12%, 11%, 10%, 9%. -/
def c7_low (i : Nat) : ℚ :=
  if i % 12 = 0 ∧ 12 ≤ i ∧ i ≤ 72 then (86 : ℚ) + ((i / 12 - 1 : Nat) : ℚ)
  else c7_high i

/-- 96-day panel exhibiting six successive contractions. -/
def c7_data : List (Nat × VBar) :=
  (List.range 96).map (fun i => (i, { high := c7_high i, low := c7_low i, volume := 100 }))

/-- The result the VCP detector emits on `c7_data`. -/
def c7_expected : PatternResult :=
  { pattern_type := "VCP", symbol := "TEST", detection_date := 95,
    confidence_score := 70, confirmed := false, weinstein_stage := none,
    meets_trend_template := false }

/-- A closed trade carrying a given P&L (the other fields are irrelevant
to the profit factor). -/
def pf_trade (pnl : ℚ) : Trade :=
  { symbol := "X", entry_date := 0, entry_price := 1, exit_date := 1, exit_price := 1,
    shares := 1, profit_loss := pnl, profit_loss_pct := 0, exit_reason := "SIGNAL" }

/-- A position used to instantiate the risk-manager theorems. -/
def c2_pos : Position :=
  { symbol := "A", shares := 100, entry_price := 100, entry_date := 0,
    stop_loss := 90, take_profit := 120, current_price := 105, current_date := some 1 }

/-- A position sitting on its stop (85 ≤ 90), used to instantiate the
exit-step theorems. -/
def c1_pos : Position :=
  { symbol := "A", shares := 100, entry_price := 100, entry_date := 0,
    stop_loss := 90, take_profit := 120, current_price := 85, current_date := some 5 }

/-- An engine state holding `c1_pos`. -/
def c1_state : EngineState :=
  { cash := 90000, positions := [c1_pos], trades := [], equity_curve := [100000],
    peak_equity := 100000 }

/-- The cash/position invariant maintained by the daily loop: cash is
non-negative and every open position has positive share count and a
positive marked price. -/
def CashInv (st : EngineState) : Prop :=
  0 ≤ st.cash ∧ ∀ p ∈ st.positions, 0 < p.shares ∧ 0 < p.current_price

/-- All closes in the price data are positive. -/
def PositiveCloses (price_data : PriceData) : Prop :=
  ∀ sp ∈ price_data, ∀ db ∈ sp.2, 0 < db.2.close

/-! ## Helper lemmas -/

theorem pyint_eq_floor {q : ℚ} (h : 0 ≤ q) : pyint q = ⌊q⌋ := by
  unfold pyint
  rw [if_neg (not_lt.mpr h)]

theorem pyint_nonneg {q : ℚ} (h : 0 ≤ q) : 0 ≤ pyint q := by
  rw [pyint_eq_floor h]
  exact Int.floor_nonneg.mpr h

/-- The trailing-stop update never returns less than the current stop. -/
theorem update_trailing_stop_ge (rm : RiskManager) (position : Position)
    (current_price : ℚ) (atr : Option ℚ) :
    position.stop_loss ≤ update_trailing_stop rm position current_price atr := by
  simp only [update_trailing_stop]
  split
  · exact le_refl _
  · exact le_max_left _ _

/-- Mapping a pointwise-related function across a list yields a
`Forall₂`-related list. -/
theorem forall₂_map_of_forall {α : Type} (R : α → α → Prop) (f : α → α)
    (h : ∀ a, R a (f a)) : ∀ l : List α, List.Forall₂ R l (l.map f)
  | [] => List.Forall₂.nil
  | a :: l => List.Forall₂.cons (h a) (forall₂_map_of_forall R f h l)

/-- `update_one_position` never lowers the stop. -/
theorem update_one_position_stop_ge (rm : RiskManager) (price_data : PriceData)
    (d : Nat) (position : Position) :
    position.stop_loss ≤ (update_one_position rm price_data d position).stop_loss := by
  unfold update_one_position
  rcases hl : lookup_panel price_data position.symbol with _ | df
  · simp only [hl]
    exact le_refl _
  · simp only [hl]
    rcases hb : bar_on df d with _ | row
    · simp only [hb]
      exact le_refl _
    · simp only [hb]
      exact update_trailing_stop_ge rm (position.update_price row.close d)
        (position.update_price row.close d).current_price
        (if 14 ≤ df.length then atr_at df d else none)

/-! ## Claims -/

/-- C2: `update_trailing_stop` never ratchets the stop down: it returns a
value at least the position's current stop; below the trigger gain it
returns the stop unchanged, and otherwise `max(current stop, candidate)`
with the candidate `price − multiplier·ATR` when an ATR is present and
positive, else `price·(1 − initial_stop_loss_pct)`; consequently the daily
mark-to-market step never decreases any position's stop. -/
theorem c2_trailing_stop_monotone :
    (∀ (rm : RiskManager) (position : Position) (current_price : ℚ) (atr : Option ℚ),
      position.stop_loss ≤ update_trailing_stop rm position current_price atr
      ∧ ((current_price - position.entry_price) / position.entry_price <
            rm.trailing_stop_trigger_pct →
          update_trailing_stop rm position current_price atr = position.stop_loss)
      ∧ (¬ ((current_price - position.entry_price) / position.entry_price <
            rm.trailing_stop_trigger_pct) →
          update_trailing_stop rm position current_price atr =
            max position.stop_loss
              (match atr with
               | some a => if 0 < a then
                     current_price - rm.trailing_stop_atr_multiplier * a
                   else current_price * (1 - rm.initial_stop_loss_pct)
               | none => current_price * (1 - rm.initial_stop_loss_pct))))
    ∧ (∀ (rm : RiskManager) (price_data : PriceData) (d : Nat) (st : EngineState),
        List.Forall₂ (fun p q => p.stop_loss ≤ q.stop_loss)
          st.positions (update_positions rm price_data d st).positions) := by
  constructor
  · intro rm position current_price atr
    refine ⟨update_trailing_stop_ge rm position current_price atr, ?_, ?_⟩
    · intro h
      simp only [update_trailing_stop]
      rw [if_pos h]
    · intro h
      simp only [update_trailing_stop]
      rw [if_neg h]
  · intro rm price_data d st
    unfold update_positions
    exact forall₂_map_of_forall _ _ (update_one_position_stop_ge rm price_data d) _

/-- Witness for C2 at a concrete position: entry 100, stop 90, price 105
(gain 5% below the 15% trigger) keeps the stop at 90. -/
theorem c2_trailing_stop_monotone_witness :
    c2_pos.stop_loss ≤ update_trailing_stop RiskManager.default c2_pos 105 none
    ∧ update_trailing_stop RiskManager.default c2_pos 105 none = c2_pos.stop_loss :=
  ⟨(c2_trailing_stop_monotone.1 RiskManager.default c2_pos 105 none).1,
   (c2_trailing_stop_monotone.1 RiskManager.default c2_pos 105 none).2.1 (by
      norm_num [c2_pos, RiskManager.default])⟩

/-- C3: position sizing is the floor of `equity·max_position_size_pct /
entry`, capped (when `entry > stop`) by the floor of
`equity·max_portfolio_risk_pct / (entry − stop)`, and is a non-negative
integer (for a non-negative equity, a positive entry price and
non-negative configured percentages, as in any engine run). -/
theorem c3_position_size (rm : RiskManager)
    (portfolio_value entry_price stop_loss_price : ℚ)
    (hpv : 0 ≤ portfolio_value) (hentry : 0 < entry_price)
    (hmps : 0 ≤ rm.max_position_size_pct) (hmpr : 0 ≤ rm.max_portfolio_risk_pct) :
    calculate_position_size rm portfolio_value entry_price stop_loss_price =
      (if entry_price ≤ stop_loss_price then
        ⌊portfolio_value * rm.max_position_size_pct / entry_price⌋
      else
        min ⌊portfolio_value * rm.max_position_size_pct / entry_price⌋
          ⌊portfolio_value * rm.max_portfolio_risk_pct / (entry_price - stop_loss_price)⌋)
    ∧ 0 ≤ calculate_position_size rm portfolio_value entry_price stop_loss_price := by
  have hsize : 0 ≤ portfolio_value * rm.max_position_size_pct / entry_price :=
    div_nonneg (mul_nonneg hpv hmps) hentry.le
  simp only [calculate_position_size]
  by_cases hrs : entry_price - stop_loss_price ≤ 0
  · have hle : entry_price ≤ stop_loss_price := by linarith
    rw [if_pos hrs, if_pos hle, pyint_eq_floor hsize]
    exact ⟨rfl, Int.floor_nonneg.mpr hsize⟩
  · have hlt : stop_loss_price < entry_price := by
      by_contra hc
      exact hrs (by linarith [not_lt.mp hc])
    have hrisk : 0 ≤ portfolio_value * rm.max_portfolio_risk_pct /
        (entry_price - stop_loss_price) :=
      div_nonneg (mul_nonneg hpv hmpr) (by linarith)
    rw [if_neg hrs, if_neg (not_le.mpr hlt), pyint_eq_floor hsize, pyint_eq_floor hrisk]
    exact ⟨rfl, le_min (Int.floor_nonneg.mpr hsize) (Int.floor_nonneg.mpr hrisk)⟩

/-- Witness for C3: equity 100000, entry 100, stop 90 under the default
configuration gives min(⌊10000/100⌋, ⌊2000/10⌋). -/
theorem c3_position_size_witness :
    calculate_position_size RiskManager.default 100000 100 90 =
      (if (100 : ℚ) ≤ 90 then
        ⌊(100000 : ℚ) * RiskManager.default.max_position_size_pct / 100⌋
      else
        min ⌊(100000 : ℚ) * RiskManager.default.max_position_size_pct / 100⌋
          ⌊(100000 : ℚ) * RiskManager.default.max_portfolio_risk_pct / (100 - 90)⌋)
    ∧ 0 ≤ calculate_position_size RiskManager.default 100000 100 90 :=
  c3_position_size RiskManager.default 100000 100 90 (by norm_num) (by norm_num)
    (by norm_num [RiskManager.default]) (by norm_num [RiskManager.default])

/-- C8: the profit factor is gross profit over absolute gross loss, `∞`
with no losses but some profit, and `0` with no positive profit; trades
with P&Ls +1000, −500, +1500 yield 5. -/
theorem c8_profit_factor :
    (∀ trades : List Trade,
      (gross_loss trades ≠ 0 →
        calculate_profit_factor trades =
          ((gross_profit trades / gross_loss trades : ℚ) : WithTop ℚ))
      ∧ (gross_loss trades = 0 → 0 < gross_profit trades →
          calculate_profit_factor trades = ⊤)
      ∧ ((∀ t ∈ trades, t.profit_loss ≤ 0) →
          calculate_profit_factor trades = ((0 : ℚ) : WithTop ℚ)))
    ∧ calculate_profit_factor [pf_trade 1000, pf_trade (-500), pf_trade 1500] =
        ((5 : ℚ) : WithTop ℚ) := by
  constructor
  · intro trades
    refine ⟨?_, ?_, ?_⟩
    · intro h
      unfold calculate_profit_factor
      rw [if_neg h]
    · intro h hp
      unfold calculate_profit_factor
      rw [if_pos h, if_pos hp]
    · intro h
      have hgp : gross_profit trades = 0 := by
        unfold gross_profit
        rw [List.filter_eq_nil_iff.mpr]
        · rfl
        · intro t ht
          simpa using not_lt.mpr (h t ht)
      by_cases hgl : gross_loss trades = 0
      · unfold calculate_profit_factor
        rw [if_pos hgl, if_neg (by rw [hgp]; exact lt_irrefl 0)]
      · unfold calculate_profit_factor
        rw [if_neg hgl, hgp, zero_div]
  · rfl

/-- Witness for C8: the generic clauses instantiated on the concrete
trade lists. -/
theorem c8_profit_factor_witness :
    calculate_profit_factor [pf_trade 1000, pf_trade (-500), pf_trade 1500] =
      ((gross_profit [pf_trade 1000, pf_trade (-500), pf_trade 1500] /
        gross_loss [pf_trade 1000, pf_trade (-500), pf_trade 1500] : ℚ) : WithTop ℚ)
    ∧ calculate_profit_factor [pf_trade 1000, pf_trade 1500] = ⊤
    ∧ calculate_profit_factor [pf_trade (-500)] = ((0 : ℚ) : WithTop ℚ) :=
  ⟨(c8_profit_factor.1 [pf_trade 1000, pf_trade (-500), pf_trade 1500]).1 (by decide),
   (c8_profit_factor.1 [pf_trade 1000, pf_trade 1500]).2.1 (by decide) (by decide),
   (c8_profit_factor.1 [pf_trade (-500)]).2.2 (by decide)⟩

/-- C9: a position constructed with the default current price starts
marked at its entry (price and date), so its value equals its cost basis
and its unrealized P&L is zero; hence executing an entry leaves the total
portfolio value (cash plus position values) unchanged. -/
theorem c9_entry_value_conservation :
    (∀ (symbol : String) (shares : ℤ) (entry_price : ℚ) (entry_date : Nat)
        (stop_loss take_profit : ℚ),
      (Position.make symbol shares entry_price entry_date stop_loss take_profit
          0 none).current_price = entry_price
      ∧ (Position.make symbol shares entry_price entry_date stop_loss take_profit
          0 none).current_date = some entry_date
      ∧ (Position.make symbol shares entry_price entry_date stop_loss take_profit
          0 none).current_value =
          (Position.make symbol shares entry_price entry_date stop_loss take_profit
            0 none).cost_basis
      ∧ (Position.make symbol shares entry_price entry_date stop_loss take_profit
          0 none).unrealized_pnl = 0)
    ∧ (∀ (symbol : String) (shares : ℤ) (entry_price : ℚ) (entry_date : Nat)
        (stop_loss take_profit : ℚ) (st : EngineState),
      calculate_portfolio_value
          (execute_entry symbol shares entry_price entry_date stop_loss take_profit st) =
        calculate_portfolio_value st) := by
  constructor
  · intro symbol shares entry_price entry_date stop_loss take_profit
    refine ⟨?_, ?_, ?_, ?_⟩ <;>
      simp [Position.make, Position.current_value, Position.cost_basis,
        Position.unrealized_pnl, Option.getD]
  · intro symbol shares entry_price entry_date stop_loss take_profit st
    simp [execute_entry, calculate_portfolio_value, Position.make,
      Position.current_value]

/-- C1: the exit step emits at most one exit per position per day — the
stop-loss check (at the close) takes precedence over take-profit, the
exit price is the close in both cases — and an executed exit removes the
position, credits `shares·exit_price` to cash and appends exactly one
trade; on the S2 panel (closes 100,105,110,108,95,85,80,75,70,65, entry
100 on day 0, 10% initial stop) the run yields exactly one trade, with
reason STOP_LOSS and exit price 85. -/
theorem c1_exit_discipline :
    (∀ position : Position,
      (position.current_price ≤ position.stop_loss →
        exit_signal_for position = some ("STOP_LOSS", position.current_price))
      ∧ (¬ position.current_price ≤ position.stop_loss →
          position.take_profit ≤ position.current_price →
          exit_signal_for position = some ("TAKE_PROFIT", position.current_price))
      ∧ (¬ position.current_price ≤ position.stop_loss →
          ¬ position.take_profit ≤ position.current_price →
          exit_signal_for position = none))
    ∧ (∀ (st : EngineState) (symbol : String) (exit_price : ℚ) (exit_date : Nat)
          (reason : String) (position : Position),
        st.positions.find? (fun p => p.symbol = symbol) = some position →
          (execute_exit symbol exit_price exit_date reason st).positions =
              st.positions.eraseP (fun p => p.symbol = symbol)
          ∧ (execute_exit symbol exit_price exit_date reason st).cash =
              st.cash + (position.shares : ℚ) * exit_price
          ∧ (execute_exit symbol exit_price exit_date reason st).trades =
              st.trades ++
                [{ symbol := symbol, entry_date := position.entry_date,
                   entry_price := position.entry_price, exit_date := exit_date,
                   exit_price := exit_price, shares := position.shares,
                   profit_loss := (position.shares : ℚ) * exit_price - position.cost_basis,
                   profit_loss_pct :=
                     ((position.shares : ℚ) * exit_price - position.cost_basis) /
                       position.cost_basis,
                   exit_reason := reason }])
    ∧ (run_backtest BacktestConfig.default s2_data (some s2_signals) none none).trades =
        [s2_trade] := by
  refine ⟨?_, ?_, by decide⟩
  · intro position
    refine ⟨?_, ?_, ?_⟩
    · intro h
      unfold exit_signal_for
      rw [if_pos h]
    · intro h htp
      unfold exit_signal_for
      rw [if_neg h, if_pos htp]
    · intro h htp
      unfold exit_signal_for
      rw [if_neg h, if_neg htp]
  · intro st symbol exit_price exit_date reason position h
    unfold execute_exit
    rw [h]
    exact ⟨rfl, rfl, rfl⟩

/-- Witness for C1: the stop-loss branch fires on `c1_pos` (85 ≤ 90), and
executing that exit credits 100·85 to cash. -/
theorem c1_exit_discipline_witness :
    exit_signal_for c1_pos = some ("STOP_LOSS", c1_pos.current_price)
    ∧ (execute_exit "A" 85 5 "STOP_LOSS" c1_state).cash =
        c1_state.cash + (c1_pos.shares : ℚ) * 85 :=
  ⟨(c1_exit_discipline.1 c1_pos).1 (by decide),
   ((c1_exit_discipline.2.1 c1_state "A" 85 5 "STOP_LOSS" c1_pos) (by decide)).2.1⟩

/-- C6 (code bug): the detector can only emit with `c8 = true`, so the
`70.0` confidence branch is unreachable — on a panel passing criteria 1-7
with the Mansfield RS column absent it still reports confidence 90, where
the claim (and the source's own comment) expects 70. -/
theorem c6_trend_template_confidence :
    (c6_data.getLast?.map (fun p => p.2.mansfield_rs)) = some none
    ∧ tt_detect "TEST" c6_data = some c6_expected
    ∧ c6_expected.confidence_score = 90 :=
  ⟨by decide, by decide, by decide⟩

/-- C7 (code bug): `detect` never consults `max_contractions`: the
96-day panel `c7_data` carries six contractions — above the configured
maximum of five — yet the detector still emits a result. -/
theorem c7_vcp_contraction_bound :
    VCPConfig.default.max_contractions = 5
    ∧ vcp_contraction_count c7_data = 6
    ∧ vcp_detect VCPConfig.default "TEST" c7_data = some c7_expected :=
  ⟨by decide, by decide, by decide⟩

/-- Unpacking one conjunct of the `is_max` accumulation. -/
theorem local_max_at_spec {data : List ℚ} {i k : Nat}
    (h : local_max_at data i k = true) :
    k ≤ i ∧ i + k < data.length ∧
      ∃ x a b, data.get? i = some x ∧ data.get? (i - k) = some a ∧
        data.get? (i + k) = some b ∧ a < x ∧ b < x := by
  unfold local_max_at at h
  by_cases hk : k ≤ i
  · rw [if_pos hk] at h
    rcases h1 : data.get? i with _ | x <;> rw [h1] at h
    · simp at h
    rcases h2 : data.get? (i - k) with _ | a <;> rw [h2] at h
    · simp at h
    rcases h3 : data.get? (i + k) with _ | b <;> rw [h3] at h
    · simp at h
    simp only [Bool.and_eq_true, decide_eq_true_eq] at h
    have hlen : i + k < data.length := by
      rcases List.get?_eq_some.mp h3 with ⟨hlt, _⟩
      exact hlt
    exact ⟨hk, hlen, x, a, b, rfl, rfl, rfl, h.1, h.2⟩
  · rw [if_neg hk] at h
    rcases h1 : data.get? i with _ | x <;> rw [h1] at h <;>
      rcases h3 : data.get? (i + k) with _ | b <;> rw [h3] at h <;> simp at h

/-- Unpacking one conjunct of the `is_min` accumulation. -/
theorem local_min_at_spec {data : List ℚ} {i k : Nat}
    (h : local_min_at data i k = true) :
    k ≤ i ∧ i + k < data.length ∧
      ∃ x a b, data.get? i = some x ∧ data.get? (i - k) = some a ∧
        data.get? (i + k) = some b ∧ x < a ∧ x < b := by
  unfold local_min_at at h
  by_cases hk : k ≤ i
  · rw [if_pos hk] at h
    rcases h1 : data.get? i with _ | x <;> rw [h1] at h
    · simp at h
    rcases h2 : data.get? (i - k) with _ | a <;> rw [h2] at h
    · simp at h
    rcases h3 : data.get? (i + k) with _ | b <;> rw [h3] at h
    · simp at h
    simp only [Bool.and_eq_true, decide_eq_true_eq] at h
    have hlen : i + k < data.length := by
      rcases List.get?_eq_some.mp h3 with ⟨hlt, _⟩
      exact hlt
    exact ⟨hk, hlen, x, a, b, rfl, rfl, rfl, h.1, h.2⟩
  · rw [if_neg hk] at h
    rcases h1 : data.get? i with _ | x <;> rw [h1] at h <;>
      rcases h3 : data.get? (i + k) with _ | b <;> rw [h3] at h <;> simp at h

/-- Membership in the maxima component gives the all-`k` property. -/
theorem mem_extrema_max {data : List ℚ} {order i : Nat}
    (h : i ∈ (find_local_extrema data order).1) :
    ∀ k, k ∈ List.range order → local_max_at data i (k + 1) = true := by
  unfold find_local_extrema at h
  have := (List.mem_filter.mp h).2
  simpa [List.all_eq_true] using this

/-- Membership in the minima component gives the all-`k` property. -/
theorem mem_extrema_min {data : List ℚ} {order i : Nat}
    (h : i ∈ (find_local_extrema data order).2) :
    ∀ k, k ∈ List.range order → local_min_at data i (k + 1) = true := by
  unfold find_local_extrema at h
  have := (List.mem_filter.mp h).2
  simpa [List.all_eq_true] using this

/-- C10: for `order ≥ 1`, every index returned by `find_local_extrema`
lies at least `order` positions away from both ends of the series
(out-of-range neighbour comparisons are false), and no index is returned
both as a maximum and as a minimum. -/
theorem c10_extrema_interior (data : List ℚ) (order i : Nat) (horder : 1 ≤ order) :
    ((i ∈ (find_local_extrema data order).1 ∨ i ∈ (find_local_extrema data order).2) →
      order ≤ i ∧ i + order < data.length)
    ∧ ¬ (i ∈ (find_local_extrema data order).1 ∧ i ∈ (find_local_extrema data order).2) := by
  have hmem : order - 1 ∈ List.range order := by
    rw [List.mem_range]
    omega
  have hsucc : order - 1 + 1 = order := by omega
  have h1mem : 0 ∈ List.range order := by
    rw [List.mem_range]
    omega
  constructor
  · rintro (h | h)
    · have := local_max_at_spec (mem_extrema_max h (order - 1) hmem)
      rw [hsucc] at this
      exact ⟨this.1, this.2.1⟩
    · have := local_min_at_spec (mem_extrema_min h (order - 1) hmem)
      rw [hsucc] at this
      exact ⟨this.1, this.2.1⟩
  · rintro ⟨hmax, hmin⟩
    rcases local_max_at_spec (mem_extrema_max hmax 0 h1mem) with
      ⟨-, -, x, a, -, hx, ha, -, hax, -⟩
    rcases local_min_at_spec (mem_extrema_min hmin 0 h1mem) with
      ⟨-, -, x', a', -, hx', ha', -, hax', -⟩
    rw [hx] at hx'
    rw [ha] at ha'
    cases hx'
    cases ha'
    exact absurd hax' (not_lt.mpr hax.le)

/-- Witness for C10 on the series 1,3,1 with order 1: index 1 is a local
maximum, one position from each end. -/
theorem c10_extrema_interior_witness :
    (1 ≤ 1 ∧ 1 + 1 < ([1, 3, 1] : List ℚ).length)
    ∧ ¬ (1 ∈ (find_local_extrema [1, 3, 1] 1).1 ∧ 1 ∈ (find_local_extrema [1, 3, 1] 1).2) :=
  ⟨(c10_extrema_interior [1, 3, 1] 1 1 (by decide)).1 (Or.inl (by decide)),
   (c10_extrema_interior [1, 3, 1] 1 1 (by decide)).2⟩

/-! ### Stable descending sort: order and stability -/

/-- Membership through `insert_desc`. -/
theorem mem_insert_desc {α : Type} (key : α → ℚ) (s x : α) :
    ∀ l : List α, x ∈ insert_desc key s l → x = s ∨ x ∈ l
  | [], h => Or.inl (by simpa [insert_desc] using h)
  | t :: ts, h => by
    unfold insert_desc at h
    by_cases hc : key t < key s
    · rw [if_pos hc] at h
      rcases List.mem_cons.mp h with h | h
      · exact Or.inl h
      · exact Or.inr h
    · rw [if_neg hc] at h
      rcases List.mem_cons.mp h with h | h
      · exact Or.inr (by simp [h])
      · rcases mem_insert_desc key s x ts h with h' | h'
        · exact Or.inl h'
        · exact Or.inr (List.mem_cons_of_mem _ h')

/-- `insert_desc` preserves descending sortedness. -/
theorem insert_desc_sorted {α : Type} (key : α → ℚ) (s : α) :
    ∀ l : List α, List.Sorted (fun a b => key b ≤ key a) l →
      List.Sorted (fun a b => key b ≤ key a) (insert_desc key s l)
  | [], _ => List.sorted_singleton s
  | t :: ts, h => by
    rcases List.sorted_cons.mp h with ⟨ht, hts⟩
    unfold insert_desc
    by_cases hc : key t < key s
    · rw [if_pos hc]
      refine List.sorted_cons.mpr ⟨?_, h⟩
      intro b hb
      rcases List.mem_cons.mp hb with hb | hb
      · subst hb
        exact hc.le
      · exact le_trans (ht b hb) hc.le
    · rw [if_neg hc]
      refine List.sorted_cons.mpr ⟨?_, insert_desc_sorted key s ts hts⟩
      intro b hb
      rcases mem_insert_desc key s b ts hb with hb | hb
      · subst hb
        exact not_lt.mp hc
      · exact ht b hb

/-- A sorted list whose head key is below `c` has no element with key `c`. -/
theorem filter_eq_nil_of_head_lt {α : Type} (key : α → ℚ) {c : ℚ} :
    ∀ {t : α} {ts : List α}, List.Sorted (fun a b => key b ≤ key a) (t :: ts) →
      key t < c → (t :: ts).filter (fun x => key x = c) = [] := by
  intro t ts h hlt
  apply List.filter_eq_nil_iff.mpr
  intro x hx
  rcases List.mem_cons.mp hx with hx | hx
  · subst hx
    simpa using ne_of_lt hlt
  · have := (List.sorted_cons.mp h).1 x hx
    simpa using ne_of_lt (lt_of_le_of_lt this hlt)

/-- Stability of `insert_desc` on sorted lists: the inserted element goes
after every element with the same key. -/
theorem filter_insert_desc {α : Type} (key : α → ℚ) (s : α) (c : ℚ) :
    ∀ l : List α, List.Sorted (fun a b => key b ≤ key a) l →
      (insert_desc key s l).filter (fun x => key x = c) =
        if key s = c then l.filter (fun x => key x = c) ++ [s]
        else l.filter (fun x => key x = c)
  | [], _ => by
    by_cases hc : key s = c <;> simp [insert_desc, hc]
  | t :: ts, h => by
    rcases List.sorted_cons.mp h with ⟨-, hts⟩
    unfold insert_desc
    by_cases hlt : key t < key s
    · rw [if_pos hlt]
      by_cases hc : key s = c
      · rw [if_pos hc]
        have hnil : (t :: ts).filter (fun x => key x = c) = [] :=
          filter_eq_nil_of_head_lt key h (hc ▸ hlt)
        rw [List.filter_cons_of_pos (by simpa using hc), hnil]
        rfl
      · rw [if_neg hc, List.filter_cons_of_neg (by simpa using hc)]
    · rw [if_neg hlt]
      by_cases hc : key s = c
      · rw [if_pos hc]
        by_cases htc : key t = c
        · rw [List.filter_cons_of_pos (by simpa using htc),
            List.filter_cons_of_pos (by simpa using htc),
            filter_insert_desc key s c ts hts, if_pos hc]
          rfl
        · rw [List.filter_cons_of_neg (by simpa using htc),
            List.filter_cons_of_neg (by simpa using htc),
            filter_insert_desc key s c ts hts, if_pos hc]
      · rw [if_neg hc]
        by_cases htc : key t = c
        · rw [List.filter_cons_of_pos (by simpa using htc),
            List.filter_cons_of_pos (by simpa using htc),
            filter_insert_desc key s c ts hts, if_neg hc]
        · rw [List.filter_cons_of_neg (by simpa using htc),
            List.filter_cons_of_neg (by simpa using htc),
            filter_insert_desc key s c ts hts, if_neg hc]

/-- The insertion fold preserves sortedness. -/
theorem foldl_insert_desc_sorted {α : Type} (key : α → ℚ) :
    ∀ (l : List α) (acc : List α), List.Sorted (fun a b => key b ≤ key a) acc →
      List.Sorted (fun a b => key b ≤ key a)
        (l.foldl (fun a s => insert_desc key s a) acc)
  | [], _, h => h
  | x :: xs, acc, h =>
    foldl_insert_desc_sorted key xs (insert_desc key x acc) (insert_desc_sorted key x acc h)

/-- The insertion fold is stable: filtering any key level recovers the
accumulator's elements followed by the input's, in order. -/
theorem filter_foldl_insert_desc {α : Type} (key : α → ℚ) (c : ℚ) :
    ∀ (l : List α) (acc : List α), List.Sorted (fun a b => key b ≤ key a) acc →
      (l.foldl (fun a s => insert_desc key s a) acc).filter (fun x => key x = c) =
        acc.filter (fun x => key x = c) ++ l.filter (fun x => key x = c)
  | [], acc, _ => by simp
  | x :: xs, acc, h => by
    rw [List.foldl_cons,
      filter_foldl_insert_desc key c xs (insert_desc key x acc)
        (insert_desc_sorted key x acc h),
      filter_insert_desc key x c acc h]
    by_cases hc : key x = c
    · rw [if_pos hc, List.filter_cons_of_pos (by simpa using hc), List.append_assoc]
      rfl
    · rw [if_neg hc, List.filter_cons_of_neg (by simpa using hc)]

/-- `sort_desc_by` sorts descending by the key. -/
theorem sort_desc_by_sorted {α : Type} (key : α → ℚ) (l : List α) :
    List.Sorted (fun a b => key b ≤ key a) (sort_desc_by key l) :=
  foldl_insert_desc_sorted key l [] (List.sorted_nil)

/-- `sort_desc_by` is stable: ties keep their input order. -/
theorem sort_desc_by_stable {α : Type} (key : α → ℚ) (l : List α) (c : ℚ) :
    (sort_desc_by key l).filter (fun x => key x = c) =
      l.filter (fun x => key x = c) := by
  unfold sort_desc_by
  rw [filter_foldl_insert_desc key c l [] (List.sorted_nil)]
  rfl

/-- The entry step depends on the day's signals only through their sorted
sequence. -/
theorem process_entries_congr (cfg : BacktestConfig) (price_data : PriceData)
    (d : Nat) (l₁ l₂ : List Signal) (st : EngineState)
    (h : sort_signals_desc l₁ = sort_signals_desc l₂) :
    process_entries cfg price_data d l₁ st = process_entries cfg price_data d l₂ st := by
  unfold process_entries
  rw [h]

/-- A day step depends on the signal map only through the sorted per-day
signal sequences. -/
theorem process_day_congr (cfg : BacktestConfig) (price_data : PriceData)
    (m₁ m₂ : SignalMap)
    (hs : ∀ d, sort_signals_desc (((m₁.find? (fun p => p.1 = d)).map (·.2)).getD []) =
          sort_signals_desc (((m₂.find? (fun p => p.1 = d)).map (·.2)).getD []))
    (d : Nat) (st : EngineState) :
    process_day cfg price_data (some m₁) d st =
      process_day cfg price_data (some m₂) d st := by
  unfold process_day
  exact process_entries_congr cfg price_data d _ _ _ (hs d)

/-- C5 counterexample: two orderings of the same two equal-confidence
same-day signals (a shuffle) produce different trade lists — the engine's
sort is stable on input order, with no symbol tie-break. -/
theorem c5_shuffle_counterexample :
    c5_signals_ab = [(0, [{ symbol := "A", confidence := 85 },
                          { symbol := "B", confidence := 85 }])]
    ∧ c5_signals_ba = [(0, [{ symbol := "B", confidence := 85 },
                            { symbol := "A", confidence := 85 }])]
    ∧ List.Perm [({ symbol := "A", confidence := 85 } : Signal),
                 { symbol := "B", confidence := 85 }]
        [({ symbol := "B", confidence := 85 } : Signal),
         { symbol := "A", confidence := 85 }]
    ∧ (run_backtest c5_cfg c5_data (some c5_signals_ab) none none).trades ≠
        (run_backtest c5_cfg c5_data (some c5_signals_ba) none none).trades :=
  ⟨by decide, by decide, by decide, by decide⟩

/-- C5 amended: entry admission sorts the day's signals by confidence
descending with ties kept in input order (a stable sort, no symbol
tie-break), so the backtest result is unchanged exactly under reorderings
that preserve the sorted sequence — in particular the relative order of
equal-confidence signals; the scanner likewise returns setups sorted
descending by confidence with ties kept in scan order. -/
theorem c5_stable_sort_determinism :
    (∀ l : List Signal,
      List.Sorted (fun a b => b.confidence ≤ a.confidence) (sort_signals_desc l)
      ∧ ∀ c : ℚ, (sort_signals_desc l).filter (fun s => s.confidence = c) =
          l.filter (fun s => s.confidence = c))
    ∧ (∀ (cfg : BacktestConfig) (price_data : PriceData) (m₁ m₂ : SignalMap)
          (start_date end_date : Option Nat),
        (∀ d, sort_signals_desc (((m₁.find? (fun p => p.1 = d)).map (·.2)).getD []) =
              sort_signals_desc (((m₂.find? (fun p => p.1 = d)).map (·.2)).getD [])) →
        run_backtest cfg price_data (some m₁) start_date end_date =
          run_backtest cfg price_data (some m₂) start_date end_date)
    ∧ (∀ (all_results : List (String × List PatternResult)) (min_confidence : ℚ),
        List.Sorted (fun a b => b.confidence_score ≤ a.confidence_score)
          (get_actionable_setups all_results min_confidence)
        ∧ ∀ c : ℚ, (get_actionable_setups all_results min_confidence).filter
            (fun p => p.confidence_score = c) =
            (actionable_filter all_results min_confidence).filter
              (fun p => p.confidence_score = c)) := by
  refine ⟨?_, ?_, ?_⟩
  · intro l
    exact ⟨sort_desc_by_sorted Signal.confidence l,
      fun c => sort_desc_by_stable Signal.confidence l c⟩
  · intro cfg price_data m₁ m₂ start_date end_date hs
    unfold run_backtest
    cases all_dates price_data with
    | nil => rfl
    | cons d0 rest =>
      exact List.foldl_ext _ _ _
        (fun st d _ => process_day_congr cfg price_data m₁ m₂ hs d st)
  · intro all_results min_confidence
    exact ⟨sort_desc_by_sorted PatternResult.confidence_score _,
      fun c => sort_desc_by_stable PatternResult.confidence_score _ c⟩

/-- Witness for C5 amended: two presentations of the same day's signals
with the same sorted sequence produce identical backtest results. -/
theorem c5_stable_sort_determinism_witness :
    run_backtest c5_cfg c5_data (some c5w_m1) none none =
      run_backtest c5_cfg c5_data (some c5w_m2) none none :=
  c5_stable_sort_determinism.2.1 c5_cfg c5_data c5w_m1 c5w_m2 none none (by
    intro d
    match d with
    | 0 => decide
    | n + 1 => simp [c5w_m1, c5w_m2, List.find?])

/-! ### Cash-invariant machinery for C4 -/

/-- A close delivered by panel lookup is positive when all closes are. -/
theorem bar_close_pos {price_data : PriceData} {symbol : String} {panel : Panel}
    {d : Nat} {bar : Bar} (hpd : PositiveCloses price_data)
    (hl : lookup_panel price_data symbol = some panel)
    (hb : bar_on panel d = some bar) : 0 < bar.close := by
  unfold lookup_panel at hl
  rcases Option.map_eq_some'.mp hl with ⟨sp, hsp, hsp2⟩
  unfold bar_on at hb
  rcases Option.map_eq_some'.mp hb with ⟨pr, hpr, hpr2⟩
  have hspmem := List.mem_of_find?_eq_some hsp
  have hprmem := List.mem_of_find?_eq_some hpr
  rw [← hsp2] at hprmem
  have := hpd sp hspmem pr hprmem
  rwa [hpr2] at this

/-- Mark-to-market keeps positive shares and a positive marked price. -/
theorem update_one_position_pos {rm : RiskManager} {price_data : PriceData}
    {d : Nat} {position : Position} (hpd : PositiveCloses price_data)
    (h : 0 < position.shares ∧ 0 < position.current_price) :
    0 < (update_one_position rm price_data d position).shares
    ∧ 0 < (update_one_position rm price_data d position).current_price := by
  unfold update_one_position
  rcases hl : lookup_panel price_data position.symbol with _ | df
  · simpa using h
  · simp only [hl]
    rcases hb : bar_on df d with _ | row
    · simpa [hb] using h
    · simp only [hb]
      exact ⟨h.1, bar_close_pos hpd hl hb⟩

/-- Step A preserves the cash invariant. -/
theorem update_positions_inv {rm : RiskManager} {price_data : PriceData}
    {d : Nat} {st : EngineState} (hpd : PositiveCloses price_data)
    (h : CashInv st) : CashInv (update_positions rm price_data d st) := by
  refine ⟨h.1, ?_⟩
  intro p hp
  rcases List.mem_map.mp hp with ⟨q, hq, rfl⟩
  exact update_one_position_pos hpd (h.2 q hq)

/-- An executed exit at a non-negative price preserves the invariant. -/
theorem execute_exit_inv {symbol : String} {exit_price : ℚ} {exit_date : Nat}
    {reason : String} {st : EngineState} (hp : 0 ≤ exit_price)
    (h : CashInv st) : CashInv (execute_exit symbol exit_price exit_date reason st) := by
  unfold execute_exit
  split
  · exact h
  · rename_i position hf
    have hmem := List.mem_of_find?_eq_some hf
    have hsh := (h.2 position hmem).1
    constructor
    · have h0 : (0 : ℚ) ≤ (position.shares : ℚ) * exit_price :=
        mul_nonneg (by exact_mod_cast hsh.le) hp
      exact add_nonneg h.1 h0
    · intro p hp'
      exact h.2 p (List.mem_of_mem_eraseP hp')

/-- The per-position exit signal carries the position's current price. -/
theorem exit_signal_for_price {position : Position} {rp : String × ℚ}
    (h : exit_signal_for position = some rp) : rp.2 = position.current_price := by
  unfold exit_signal_for at h
  by_cases h1 : position.current_price ≤ position.stop_loss
  · rw [if_pos h1] at h
    cases h
    rfl
  · rw [if_neg h1] at h
    by_cases h2 : position.take_profit ≤ position.current_price
    · rw [if_pos h2] at h
      cases h
      rfl
    · rw [if_neg h2] at h
      cases h

/-- Folding exits at non-negative prices preserves the invariant. -/
theorem foldl_execute_exit_inv (d : Nat) :
    ∀ (exits : List (String × String × ℚ)) (st : EngineState),
      (∀ e ∈ exits, 0 ≤ e.2.2) → CashInv st →
      CashInv (exits.foldl (fun s e => execute_exit e.1 e.2.2 d e.2.1 s) st)
  | [], _, _, h => h
  | e :: es, st, hprices, h => by
    rw [List.foldl_cons]
    exact foldl_execute_exit_inv d es _
      (fun e' he' => hprices e' (List.mem_cons_of_mem _ he'))
      (execute_exit_inv (hprices e (List.mem_cons_self e es)) h)

/-- Step B preserves the cash invariant. -/
theorem check_exits_inv {d : Nat} {st : EngineState} (h : CashInv st) :
    CashInv (check_exits d st) := by
  unfold check_exits
  apply foldl_execute_exit_inv d _ st _ h
  intro e he
  rcases List.mem_filterMap.mp he with ⟨p, hp, hfp⟩
  rcases Option.map_eq_some'.mp hfp with ⟨rp, hrp, rfl⟩
  have := exit_signal_for_price hrp
  simp only [this]
  exact ((h.2 p hp).2).le

/-- The floor-sized affordable cost never exceeds the cash on hand. -/
theorem pyint_cost_le {cash entry : ℚ} (hcash : 0 ≤ cash) (hentry : 0 < entry) :
    ((pyint (cash / entry) : ℚ)) * entry ≤ cash := by
  rw [pyint_eq_floor (div_nonneg hcash hentry.le)]
  calc ((⌊cash / entry⌋ : ℚ)) * entry
      ≤ (cash / entry) * entry := by
        exact mul_le_mul_of_nonneg_right (Int.floor_le _) hentry.le
    _ = cash := div_mul_cancel₀ cash (ne_of_gt hentry)

/-- An entry whose cost is at most the cash on hand preserves the
invariant. -/
theorem execute_entry_inv {symbol : String} {shares : ℤ} {entry_price : ℚ}
    {entry_date : Nat} {stop_loss take_profit : ℚ} {st : EngineState}
    (hsh : 0 < shares) (hentry : 0 < entry_price)
    (hcost : (shares : ℚ) * entry_price ≤ st.cash) (h : CashInv st) :
    CashInv (execute_entry symbol shares entry_price entry_date stop_loss take_profit st) := by
  unfold execute_entry
  constructor
  · simpa using hcost
  · intro p hp
    rcases List.mem_append.mp hp with hp | hp
    · exact h.2 p hp
    · rcases List.mem_singleton.mp hp with rfl
      refine ⟨hsh, ?_⟩
      simpa [Position.make] using hentry

/-- The entry loop preserves the cash invariant. -/
theorem process_signal_list_inv {cfg : BacktestConfig} {price_data : PriceData}
    {d : Nat} {pv dd : ℚ} (hpd : PositiveCloses price_data) :
    ∀ (sigs : List Signal) (st : EngineState), CashInv st →
      CashInv (process_signal_list cfg price_data d pv dd sigs st)
  | [], _, h => h
  | signal :: rest, st, h => by
    unfold process_signal_list
    by_cases h1 : cfg.max_positions ≤ st.positions.length
    · rw [if_pos h1]
      exact h
    rw [if_neg h1]
    by_cases h2 : check_drawdown_limit cfg.risk_manager dd = true
    · rw [if_pos h2]
      exact h
    rw [if_neg h2]
    by_cases h3 : signal.symbol = "" ∨ (st.positions.any (fun p => p.symbol = signal.symbol)) = true
    · rw [if_pos h3]
      exact process_signal_list_inv hpd rest st h
    rw [if_neg h3]
    rcases hl : lookup_panel price_data signal.symbol with _ | df
    · dsimp only
      exact process_signal_list_inv hpd rest st h
    dsimp only
    rcases hb : bar_on df d with _ | row
    · dsimp only
      exact process_signal_list_inv hpd rest st h
    dsimp only
    have hentry : 0 < row.close := bar_close_pos hpd hl hb
    by_cases h4 : calculate_position_size cfg.risk_manager pv row.close
        (calculate_initial_stop_loss cfg.risk_manager row.close) ≤ 0
    · rw [if_pos h4]
      exact process_signal_list_inv hpd rest st h
    rw [if_neg h4]
    by_cases h5 : st.cash <
        ((calculate_position_size cfg.risk_manager pv row.close
          (calculate_initial_stop_loss cfg.risk_manager row.close) : ℤ) : ℚ) * row.close
    · rw [if_pos h5]
      by_cases h6 : pyint (st.cash / row.close) ≤ 0
      · rw [if_pos h6]
        exact process_signal_list_inv hpd rest st h
      · rw [if_neg h6]
        refine process_signal_list_inv hpd rest _ ?_
        exact execute_entry_inv (not_le.mp h6) hentry (pyint_cost_le h.1 hentry) h
    · rw [if_neg h5]
      refine process_signal_list_inv hpd rest _ ?_
      exact execute_entry_inv (not_le.mp h4) hentry (not_lt.mp h5) h

/-- Step D preserves the cash invariant. -/
theorem process_entries_inv {cfg : BacktestConfig} {price_data : PriceData}
    {d : Nat} {day_signals : List Signal} {st : EngineState}
    (hpd : PositiveCloses price_data) (h : CashInv st) :
    CashInv (process_entries cfg price_data d day_signals st) := by
  unfold process_entries
  exact process_signal_list_inv hpd _ st h

/-- A full day step preserves the cash invariant. -/
theorem process_day_inv {cfg : BacktestConfig} {price_data : PriceData}
    {signals : Option SignalMap} {d : Nat} {st : EngineState}
    (hpd : PositiveCloses price_data) (h : CashInv st) :
    CashInv (process_day cfg price_data signals d st) := by
  unfold process_day
  have h2 : CashInv (check_exits d (update_positions cfg.risk_manager price_data d st)) :=
    check_exits_inv (update_positions_inv hpd h)
  cases signals with
  | none => exact ⟨h2.1, h2.2⟩
  | some m => exact process_entries_inv hpd ⟨h2.1, h2.2⟩

/-- Folding days preserves the cash invariant. -/
theorem foldl_process_day_inv {cfg : BacktestConfig} {price_data : PriceData}
    {signals : Option SignalMap} (hpd : PositiveCloses price_data) :
    ∀ (dates : List Nat) (st : EngineState), CashInv st →
      CashInv (dates.foldl (fun s d => process_day cfg price_data signals d s) st)
  | [], _, h => h
  | d :: ds, st, h => by
    rw [List.foldl_cons]
    exact foldl_process_day_inv hpd ds _ (process_day_inv hpd h)

/-- The reset state satisfies the invariant for non-negative capital. -/
theorem init_inv {cfg : BacktestConfig} (hinit : 0 ≤ cfg.initial_capital) :
    CashInv (EngineState.init cfg) := by
  refine ⟨hinit, ?_⟩
  intro p hp
  simp [EngineState.init] at hp

/-- C4: starting from non-negative capital over panels with positive
closes, cash stays non-negative after every simulated day and after every
entry: an unaffordable entry is floor-reduced to `⌊cash/entry⌋` shares
(skipped when that is not positive), so the entry debit never exceeds the
cash on hand. -/
theorem c4_cash_nonneg (cfg : BacktestConfig) (price_data : PriceData)
    (signals : Option SignalMap) (hinit : 0 ≤ cfg.initial_capital)
    (hpd : PositiveCloses price_data) :
    (∀ dates : List Nat,
      0 ≤ (dates.foldl (fun st d => process_day cfg price_data signals d st)
            (EngineState.init cfg)).cash)
    ∧ (∀ (d : Nat) (pv dd : ℚ) (sigs : List Signal) (st : EngineState),
        CashInv st →
        0 ≤ (process_signal_list cfg price_data d pv dd sigs st).cash)
    ∧ (∀ (cash entry : ℚ), 0 ≤ cash → 0 < entry →
        ((pyint (cash / entry) : ℚ)) * entry ≤ cash)
    ∧ (∀ start_date end_date : Option Nat,
        0 ≤ (run_backtest cfg price_data signals start_date end_date).cash) := by
  refine ⟨?_, ?_, ?_, ?_⟩
  · intro dates
    exact (foldl_process_day_inv hpd dates _ (init_inv hinit)).1
  · intro d pv dd sigs st h
    exact (process_signal_list_inv hpd sigs st h).1
  · intro cash entry hcash hentry
    exact pyint_cost_le hcash hentry
  · intro start_date end_date
    unfold run_backtest
    cases hd : all_dates price_data with
    | nil => exact hinit
    | cons d0 rest =>
      exact (foldl_process_day_inv hpd _ _ (init_inv hinit)).1

/-- Witness for C4: the scenario-S4-shaped run (capital 100, entries at
price 60) ends with non-negative cash. -/
theorem c4_cash_nonneg_witness :
    0 ≤ (run_backtest c4_cfg c4_data (some c4_signals) none none).cash :=
  (c4_cash_nonneg c4_cfg c4_data (some c4_signals)
    (by norm_num [c4_cfg]) (by unfold PositiveCloses; decide)).2.2.2 none none

end SRT
